import Mathlib

/-!
Verification development for the Chess-Analyzer repository.

The repository is a Flask web application that fetches a user's game history
from Lichess / Chess.com, normalizes it to the player's perspective and
aggregates statistics.  The browser-side scripts under
src/web/static/js are embedded directly from their source.  The server-side
normalization / aggregation pipeline itself is not present in the available
sources (only its documentation), so those components are modelled from the
specification, as marked on each definition.
-/

/-! ## String primitives

ASCII models of the string primitives the scripts use
(String.prototype.trim, String.prototype.toLowerCase, str.lower()),
defined structurally over the character list so that they evaluate. -/

/-- ASCII lowercasing of one character: shift the codes of A..Z by 32. -/
def charLower (c : Char) : Char :=
  if 65 ≤ c.toNat ∧ c.toNat ≤ 90 then Char.ofNat (c.toNat + 32) else c

/-- Lowercase a string character-wise (ASCII model of toLowerCase). -/
def jsToLower (s : String) : String := ⟨s.data.map charLower⟩

/-- Strip leading and trailing whitespace (model of trim). -/
def jsTrim (s : String) : String :=
  ⟨((s.data.dropWhile Char.isWhitespace).reverse.dropWhile Char.isWhitespace).reverse⟩

/-! ## Browser script: generation-time-estimate.js -/

/-- One step of accumulating a decimal digit, as repeated parsing of a
digit character does (character code minus 48). -/
def digitStep (acc : Nat) (c : Char) : Nat := acc * 10 + (c.toNat - 48)

/-- The longest leading run of decimal digits of a character list. -/
def leadingDigits : List Char → List Char
  | [] => []
  | c :: cs => if c.isDigit then c :: leadingDigits cs else []

/-- Numeric value of a digit list. -/
def digitsVal (l : List Char) : Nat := l.foldl digitStep 0

/-- Model of JavaScript parseInt with base 10 on a form field value:
skip surrounding whitespace, read an optional sign and then the longest
leading digit run; no digits gives NaN, modelled as none. -/
def jsParseInt (s : String) : Option Int :=
  let cs := (jsTrim s).toList
  let signAndRest : Int × List Char :=
    match cs with
    | '-' :: r => (-1, r)
    | '+' :: r => (1, r)
    | r => (1, r)
  let ds := leadingDigits signAndRest.2
  if ds.isEmpty then none else some (signAndRest.1 * (digitsVal ds : Int))

/-- JavaScript `x || 0` applied to a parseInt result: NaN (none) and 0 are
falsy and give 0, every other number passes through. -/
def jsOrZero (x : Option Int) : Int :=
  match x with
  | none => 0
  | some v => if v = 0 then 0 else v

/-- `const numGames = parseInt(gamesInput.value) || 0;` from
src/web/static/js/generation-time-estimate.js. -/
def numGames (fieldValue : String) : Int := jsOrZero (jsParseInt fieldValue)

/-- JavaScript Math.round: round half towards positive infinity. -/
def jsRound (x : ℚ) : ℤ := ⌊x + 1 / 2⌋

/-- `const estimatedTime = baseTime + (numGames * perGameTime);` with
baseTime 6 and perGameTime 0.2, then displayed through Math.round, from
updateTimeEstimate in src/web/static/js/generation-time-estimate.js.
JavaScript doubles are modelled as exact rationals. -/
def estimatedTimeDisplay (fieldValue : String) : ℤ :=
  jsRound (6 + numGames fieldValue * (0.2 : ℚ))

/-- `if (numGames > 1000)` controls the game-limit warning visibility in
updateTimeEstimate of src/web/static/js/generation-time-estimate.js. -/
def gameLimitWarningShown (fieldValue : String) : Bool :=
  numGames fieldValue > 1000

/-! ## Browser script: time-control-validation.js -/

/-- updateTimeControls from src/web/static/js/time-control-validation.js:
given the selected platform radio value and whether the Classical option is
currently present in the perf_type select, it removes the option on
chess.com and (re-)adds it on any other platform; the return value is the
presence of the Classical option afterwards. -/
def updateTimeControls (platform : String) (classicalPresent : Bool) : Bool :=
  if platform = "chess.com" then false
  else if ¬classicalPresent then true
  else classicalPresent

/-! ## Pipeline data model

Modelled from the spec: the server-side normalization and aggregation
pipeline (Platform Adapter, Perspective Normalizer, Metric Aggregator of
spec sections 3 and 4) is not among the available sources; these
definitions follow the spec's data model and contracts. -/

/-- Modelled from the spec: platform enum of the CanonicalGame data model. -/
inductive Platform
  | Lichess
  | ChessCom
  deriving DecidableEq, Repr

/-- Modelled from the spec: time-control enum of the CanonicalGame data
model. -/
inductive TimeControl
  | Bullet
  | Blitz
  | Rapid
  | Classical
  | Correspondence
  deriving DecidableEq, Repr

/-- Modelled from the spec: absolute board color. -/
inductive Color
  | White
  | Black
  deriving DecidableEq, Repr

/-- Modelled from the spec: game result from the subject's perspective. -/
inductive GameResult
  | Win
  | Loss
  | Draw
  deriving DecidableEq, Repr

/-- Modelled from the spec: the canonical per-game record produced by the
Adapter/Normalizer stage (spec section 3).  Durations are modelled as exact
rationals, timestamps as naturals (UTC epoch seconds). -/
structure CanonicalGame where
  id : String
  platform : Platform
  timeControl : TimeControl
  subjectColor : Color
  subjectRating : Option Nat
  opponentRating : Option Nat
  ratingDelta : Option Int
  result : GameResult
  opening : String
  numMoves : Nat
  durationSeconds : Option ℚ
  playedAt : Nat
  deriving DecidableEq, Repr

/-- Modelled from the spec: one raw per-platform game payload as delivered
by the Fetcher collaborator.  Fields that the platform APIs may omit are
optional; the player identifiers are keyed by absolute color and the
platform-declared winner is none for a draw. -/
structure RawGame where
  platform : Platform
  gameId : Option String
  moveList : Option (List String)
  endTimestamp : Option Nat
  whiteId : String
  blackId : String
  winner : Option Color
  timeControl : TimeControl
  whiteRating : Option Nat
  blackRating : Option Nat
  whiteRatingDelta : Option Int
  blackRatingDelta : Option Int
  openingName : Option String
  createdAt : Option Nat
  lastMoveAt : Option Nat
  deriving DecidableEq, Repr

/-- Modelled from the spec: per-record error taxonomy of spec section 7. -/
inductive AdaptError
  | malformedRecord (missingField : String)
  | subjectNotInGame
  deriving DecidableEq, Repr

/-- Modelled from the spec: request-level error taxonomy of spec
section 7. -/
inductive RequestError
  | unsupportedTimeControl (p : Platform) (tc : TimeControl)
  deriving DecidableEq, Repr

/-! ## Perspective Normalizer (spec section 4.2) -/

/-- Modelled from the spec: resolve which absolute color the subject
played by matching the subject username case-insensitively against the
white/black player identifiers; neither side matching fails with
SubjectNotInGame. -/
def resolveSubjectColor (raw : RawGame) (subjectUsername : String) :
    Except AdaptError Color :=
  let u := jsToLower subjectUsername
  if u = jsToLower raw.whiteId then .ok .White
  else if u = jsToLower raw.blackId then .ok .Black
  else .error .subjectNotInGame

/-- Modelled from the spec: recompute Win/Loss/Draw relative to the
subject's resolved color from the platform-declared absolute winner. -/
def resultFor (winner : Option Color) (subjectColor : Color) : GameResult :=
  match winner with
  | none => .Draw
  | some w => if w = subjectColor then .Win else .Loss

/-- Modelled from the spec: the Perspective Normalizer contract of spec
section 4.2, returning the resolved subject color and the perspective
result. -/
def normalizeGame (raw : RawGame) (subjectUsername : String) :
    Except AdaptError (Color × GameResult) :=
  match resolveSubjectColor raw subjectUsername with
  | .error e => .error e
  | .ok c => .ok (c, resultFor raw.winner c)

/-! ## Platform Adapter (spec section 4.1) -/

/-- Modelled from the spec: the Adapter contract of spec section 4.1 with
the Normalizer of section 4.2 already applied (as the spec notes is the
case in practice).  Missing required fields (game id, a PGN/move list, or
timestamp) fail with MalformedRecord; an unrecognized or absent opening
yields the name Unknown; duration is derived from createdAt/lastMoveAt
when both are present, else null. -/
def adapt (raw : RawGame) (subjectUsername : String) :
    Except AdaptError CanonicalGame :=
  match raw.gameId with
  | none => .error (.malformedRecord "game id")
  | some gid =>
    match raw.moveList with
    | none => .error (.malformedRecord "moves")
    | some moves =>
      match raw.endTimestamp with
      | none => .error (.malformedRecord "timestamp")
      | some ts =>
        match resolveSubjectColor raw subjectUsername with
        | .error e => .error e
        | .ok color =>
          .ok
            { id := gid
              platform := raw.platform
              timeControl := raw.timeControl
              subjectColor := color
              subjectRating :=
                match color with
                | .White => raw.whiteRating
                | .Black => raw.blackRating
              opponentRating :=
                match color with
                | .White => raw.blackRating
                | .Black => raw.whiteRating
              ratingDelta :=
                match color with
                | .White => raw.whiteRatingDelta
                | .Black => raw.blackRatingDelta
              result := resultFor raw.winner color
              opening := raw.openingName.getD "Unknown"
              numMoves := moves.length
              durationSeconds :=
                match raw.createdAt, raw.lastMoveAt with
                | some a, some b => some ((b - a : Nat) : ℚ)
                | _, _ => none
              playedAt := ts }

/-- Modelled from the spec: per-record errors never abort the batch; the
failed records are skipped and counted (spec section 7).  Returns the
successfully adapted records in input order together with the skip
count. -/
def processBatch (payloads : List RawGame) (subjectUsername : String) :
    List CanonicalGame × Nat :=
  payloads.foldr
    (fun raw acc =>
      match adapt raw subjectUsername with
      | .ok g => (g :: acc.1, acc.2)
      | .error _ => (acc.1, acc.2 + 1))
    ([], 0)

/-! ## Metric Aggregator (spec section 4.3) -/

/-- Modelled from the spec: count and win/draw/loss rates of one group of
games. -/
structure GroupRates where
  count : Nat
  winRate : ℚ
  drawRate : ℚ
  lossRate : ℚ
  deriving DecidableEq, Repr

/-- Modelled from the spec: rate computation of spec section 4.3 — rates
are count/total over the group; a group with zero games reports all-zero
rates, never NaN. -/
def mkRates (gs : List CanonicalGame) : GroupRates :=
  let n := gs.length
  if n = 0 then ⟨0, 0, 0, 0⟩
  else
    { count := n
      winRate := ((gs.filter fun g => decide (g.result = .Win)).length : ℚ) / n
      drawRate := ((gs.filter fun g => decide (g.result = .Draw)).length : ℚ) / n
      lossRate := ((gs.filter fun g => decide (g.result = .Loss)).length : ℚ) / n }

/-- Modelled from the spec: one row of the opening frequency table. -/
structure OpeningRow where
  opening : String
  rates : GroupRates
  deriving DecidableEq, Repr

/-- Modelled from the spec: the distinct openings occurring in the input,
in first-occurrence order. -/
def openingKeys (gs : List CanonicalGame) : List String :=
  (gs.map fun g => g.opening).dedup

/-- Modelled from the spec: opening table of spec section 4.3 step 1 —
group by opening; zero-game openings never occur as keys and are thus
omitted. -/
def openingTable (gs : List CanonicalGame) : List OpeningRow :=
  (openingKeys gs).map fun o =>
    ⟨o, mkRates (gs.filter fun g => decide (g.opening = o))⟩

/-- All five time controls of the data model. -/
def allTimeControls : List TimeControl :=
  [.Bullet, .Blitz, .Rapid, .Classical, .Correspondence]

/-- Both subject colors. -/
def allColors : List Color := [.White, .Black]

/-- Modelled from the spec: one row of the time-control-by-color table. -/
structure TcColorRow where
  timeControl : TimeControl
  color : Color
  rates : GroupRates
  deriving DecidableEq, Repr

/-- Modelled from the spec: time-control-by-color table of spec section 4.3
step 2 — every (timeControl, subjectColor) combination gets a row, missing
combinations as all-zero rows rather than omitted. -/
def tcColorTable (gs : List CanonicalGame) : List TcColorRow :=
  (allTimeControls.map fun tc =>
    allColors.map fun c =>
      ⟨tc, c,
        mkRates (gs.filter fun g =>
          decide (g.timeControl = tc ∧ g.subjectColor = c))⟩).flatten

/-- Modelled from the spec: sort key for the rating trajectory of spec
section 4.3 step 3 — ascending playedAt, ties broken by the platform-native
order, carried here as the index of the game in the input sequence. -/
def trajLe (a b : Nat × CanonicalGame) : Prop :=
  a.2.playedAt < b.2.playedAt ∨ (a.2.playedAt = b.2.playedAt ∧ a.1 ≤ b.1)

instance : DecidableRel trajLe := fun a b => by
  unfold trajLe; infer_instance

instance : IsTotal (Nat × CanonicalGame) trajLe :=
  ⟨fun a b => by unfold trajLe; omega⟩

instance : IsTrans (Nat × CanonicalGame) trajLe :=
  ⟨fun a b c hab hbc => by
    unfold trajLe at hab hbc ⊢; omega⟩

/-- Modelled from the spec: the games carrying a non-null subjectRating,
paired with their position in the platform-native input order, sorted by
(playedAt, native position). -/
def sortedIndexed (gs : List CanonicalGame) : List (Nat × CanonicalGame) :=
  List.insertionSort trajLe
    (gs.enum.filter fun p => p.2.subjectRating.isSome)

/-- Modelled from the spec: rating trajectory of spec section 4.3 step 3 —
(playedAt, subjectRating, ratingDelta) tuples in ascending playedAt order,
ties broken by platform-native game order, restricted to games with a
non-null subjectRating. -/
def ratingTrajectory (gs : List CanonicalGame) :
    List (Nat × Option Nat × Option Int) :=
  (sortedIndexed gs).map fun p => (p.2.playedAt, p.2.subjectRating, p.2.ratingDelta)

/-- Modelled from the spec: summary scalars of spec section 4.3 step 4. -/
structure Summary where
  totalGames : Nat
  winRate : ℚ
  drawRate : ℚ
  lossRate : ℚ
  avgMoveCount : Option ℚ
  avgDuration : Option ℚ
  deriving DecidableEq, Repr

/-- Modelled from the spec: the non-null durations of the input records. -/
def durationsOf (gs : List CanonicalGame) : List ℚ :=
  gs.filterMap fun g => g.durationSeconds

/-- Modelled from the spec: the average of a list of values, null when the
list is empty rather than zero. -/
def avgOpt (l : List ℚ) : Option ℚ :=
  if l.isEmpty then none else some (l.sum / l.length)

/-- Modelled from the spec: summary scalars — overall win/draw/loss rate,
average move count and average duration, nulls excluded from the duration
average and an all-null duration column reported as null. -/
def summaryOf (gs : List CanonicalGame) : Summary :=
  let r := mkRates gs
  { totalGames := gs.length
    winRate := r.winRate
    drawRate := r.drawRate
    lossRate := r.lossRate
    avgMoveCount := avgOpt (gs.map fun g => (g.numMoves : ℚ))
    avgDuration := avgOpt (durationsOf gs) }

/-- Modelled from the spec: the AggregateReport of spec section 3,
constructed fresh per request by the Metric Aggregator. -/
structure AggregateReport where
  openings : List OpeningRow
  tcColor : List TcColorRow
  trajectory : List (Nat × Option Nat × Option Int)
  summary : Summary
  deriving DecidableEq, Repr

/-- Modelled from the spec: the Metric Aggregator contract of spec
section 4.3 — a pure fold over the already-materialized normalized
sequence. -/
def aggregate (gs : List CanonicalGame) : AggregateReport :=
  { openings := openingTable gs
    tcColor := tcColorTable gs
    trajectory := ratingTrajectory gs
    summary := summaryOf gs }

/-- Modelled from the spec: the Aggregator as invoked by the enclosing
request handler, which disposes of a wall-clock; per spec section 4.3 the
aggregation has no dependency on it beyond the timestamps embedded in the
input records, so the clock argument is discarded. -/
def aggregateAtClock (_wallClock : Nat) (gs : List CanonicalGame) :
    AggregateReport :=
  aggregate gs

/-! ## Request-level pipeline (spec sections 6 and 7) -/

/-- Modelled from the spec: the request-level structural check of spec
section 7 — a platform/time-control combination that is structurally
impossible (Classical on Chess.com) is rejected with UnsupportedTimeControl
before any fetching begins. -/
def validateRequest (p : Platform) (tc : TimeControl) :
    Except RequestError Unit :=
  if p = .ChessCom ∧ tc = .Classical then
    .error (.unsupportedTimeControl p tc)
  else .ok ()

/-- Modelled from the spec: the value returned to the caller — the
AggregateReport plus the number of skipped records, so the caller can
report how many games were skipped. -/
structure PipelineOutput where
  report : AggregateReport
  skippedCount : Nat
  deriving DecidableEq, Repr

/-- Modelled from the spec: the whole pipeline of spec section 2 — request
validation, then fetch (the Fetcher collaborator is passed in as a
function), then per-record adaptation with skip-and-continue, then
aggregation. -/
def runPipeline (p : Platform) (tc : TimeControl) (subjectUsername : String)
    (fetch : Platform → TimeControl → List RawGame) :
    Except RequestError PipelineOutput :=
  match validateRequest p tc with
  | .error e => .error e
  | .ok _ =>
    let payloads := fetch p tc
    let batch := processBatch payloads subjectUsername
    .ok { report := aggregate batch.1, skippedCount := batch.2 }

/-! ## Browser script: form-validation.js

The analysis form's username validation is event-driven JavaScript with an
asynchronous remote check.  It is embedded as a state machine: the DOM and
script state that the handlers in src/web/static/js/form-validation.js read
and write, and one event per handler activation.  An in-flight fetch started
by validateUsername is a pending entry carrying the username/platform the
function captured when it started; its resolution is a separate event. -/

/-- The `lastValidation` cache object of form-validation.js. -/
structure LastValidation where
  username : String
  platform : String
  valid : Bool
  deriving DecidableEq, Repr

/-- An in-flight remote username check: the username and platform captured
synchronously at the start of validateUsername. -/
structure PendingFetch where
  username : String
  platform : String
  deriving DecidableEq, Repr

/-- The state read and written by the handlers of form-validation.js:
the username field value, the checked platform radio (none when no radio is
checked), the is-invalid CSS class on the input, the isValidating flag, the
lastValidation cache, the submit button's disabled attribute, whether the
debounce timer is armed, and the in-flight fetches. -/
structure FVState where
  inputValue : String
  checkedPlatform : Option String
  isInvalidClass : Bool
  isValidating : Bool
  lastValidation : LastValidation
  submitDisabled : Bool
  timerSet : Bool
  pending : List PendingFetch
  deriving DecidableEq, Repr

/-- getSelectedPlatform from form-validation.js: the checked radio's value,
or the string lichess when none is checked. -/
def getSelectedPlatform (s : FVState) : String :=
  s.checkedPlatform.getD "lichess"

/-- Outcome of the remote username check: HTTP ok, HTTP 404, another
non-ok HTTP status, or a network error (the catch branch). -/
inductive FetchOutcome
  | ok
  | notFound
  | otherError
  | networkError
  deriving DecidableEq, Repr

/-- The events that drive form-validation.js: an input event on the
username field, a change event on a platform radio, blur on the field, the
debounce timer firing, an in-flight fetch resolving, and a submit attempt. -/
inductive FVEvent
  | inputEdit (v : String)
  | platformChange (p : String)
  | blur
  | timerFire
  | fetchResolve (i : Nat) (o : FetchOutcome)
  | submitAttempt
  deriving DecidableEq, Repr

/-- The synchronous part of validateUsername in form-validation.js, up to
the await on fetch: trim and lowercase the field, bail out on an empty
username, skip when the cache already marks this username/platform
combination valid, otherwise enter the validating state and start the
remote check. -/
def startValidation (s : FVState) : FVState :=
  let username := jsToLower (jsTrim s.inputValue)
  let platform := getSelectedPlatform s
  if username = "" then
    { s with isInvalidClass := false
             lastValidation := { s.lastValidation with valid := false }
             isValidating := false
             submitDisabled := true }
  else if s.lastValidation.username = username ∧
      s.lastValidation.platform = platform ∧ s.lastValidation.valid = true then
    s
  else
    { s with isValidating := true
             submitDisabled := true
             pending := s.pending ++ [⟨username, platform⟩] }

/-- One handler activation of form-validation.js.  The input handler clears
the debounce timer, the invalid mark and the cache's valid bit and re-enables
nothing; the platform-change handler does the same and then re-validates a
non-empty field; blur arms the debounce timer; the timer firing runs
validateUsername; a fetch resolution runs the continuation of
validateUsername after the await, with the captured username/platform; a
submit attempt is prevented (and re-validates) while validating or while the
cache is not valid, and otherwise submits leaving the state unchanged. -/
def fvStep (s : FVState) : FVEvent → FVState
  | .inputEdit v =>
    { s with inputValue := v
             timerSet := false
             isInvalidClass := false
             lastValidation := { s.lastValidation with valid := false }
             isValidating := false
             submitDisabled := true }
  | .platformChange p =>
    let s1 : FVState :=
      { s with checkedPlatform := some p
               isInvalidClass := false
               lastValidation := { s.lastValidation with valid := false }
               isValidating := false
               submitDisabled := true }
    if jsTrim s1.inputValue ≠ "" then startValidation s1 else s1
  | .blur => { s with timerSet := true }
  | .timerFire =>
    if s.timerSet then startValidation { s with timerSet := false } else s
  | .fetchResolve i o =>
    match s.pending[i]? with
    | none => s
    | some f =>
      let s1 : FVState := { s with pending := s.pending.eraseIdx i }
      match o with
      | .ok =>
        { s1 with isInvalidClass := false
                  lastValidation := ⟨f.username, f.platform, true⟩
                  isValidating := false
                  submitDisabled := false }
      | .notFound =>
        { s1 with isInvalidClass := true
                  lastValidation := { s1.lastValidation with valid := false }
                  isValidating := false
                  submitDisabled := true }
      | .otherError => { s1 with isValidating := false, submitDisabled := true }
      | .networkError => { s1 with isValidating := false, submitDisabled := true }
  | .submitAttempt =>
    if s.isValidating = true ∨ s.lastValidation.valid = false then
      startValidation s
    else s

/-- The submit handler's condition for letting the form submit:
`if (isValidating || !lastValidation.valid)` prevents, so submission goes
through exactly when not validating and the cache's valid bit is set. -/
def submitGoesThrough (s : FVState) : Bool :=
  !s.isValidating && s.lastValidation.valid

/-- Run a sequence of events from a state. -/
def fvRun (s : FVState) (es : List FVEvent) : FVState :=
  es.foldl fvStep s

/-- The page-load state: no validation in flight, an all-empty invalid
cache, no timer, no pending fetch; the initial field value and checked
platform radio come from the rendered page. -/
def fvInit (initialValue : String) (initialPlatform : Option String) : FVState :=
  { inputValue := initialValue
    checkedPlatform := initialPlatform
    isInvalidClass := false
    isValidating := false
    lastValidation := ⟨"", "", false⟩
    submitDisabled := false
    timerSet := false
    pending := [] }

/-! ## Concrete sample data -/

deriving instance DecidableEq for Except

/-- A well-formed Lichess payload in which Alice played white and won. -/
def sampleRawWhite : RawGame :=
  { platform := .Lichess
    gameId := some "g1"
    moveList := some ["e4", "e5", "Nf3"]
    endTimestamp := some 1000
    whiteId := "Alice"
    blackId := "Bob"
    winner := some .White
    timeControl := .Blitz
    whiteRating := some 1500
    blackRating := some 1400
    whiteRatingDelta := some 8
    blackRatingDelta := some (-8)
    openingName := some "Italian Game"
    createdAt := some 700
    lastMoveAt := some 1000 }

/-- The same payload with its move list missing. -/
def sampleRawMissingMoves : RawGame :=
  { sampleRawWhite with gameId := some "g2", moveList := none }

/-- A fetcher returning one malformed payload between two good ones. -/
def sampleFetch : Platform → TimeControl → List RawGame :=
  fun _ _ => [sampleRawWhite, sampleRawMissingMoves, sampleRawWhite]

/-- The pipeline output on sampleFetch for subject alice. -/
def samplePipelineOut : PipelineOutput :=
  { report := aggregate (processBatch (sampleFetch .Lichess .Blitz) "alice").1
    skippedCount := (processBatch (sampleFetch .Lichess .Blitz) "alice").2 }

/-- A canonical blitz win as white with full rating and duration data. -/
def sampleGameWin : CanonicalGame :=
  { id := "a"
    platform := .Lichess
    timeControl := .Blitz
    subjectColor := .White
    subjectRating := some 1500
    opponentRating := some 1400
    ratingDelta := some 5
    result := .Win
    opening := "Italian Game"
    numMoves := 40
    durationSeconds := some 300
    playedAt := 100 }

/-- A canonical blitz draw as white with null rating and duration. -/
def sampleGameDraw : CanonicalGame :=
  { id := "b"
    platform := .Lichess
    timeControl := .Blitz
    subjectColor := .White
    subjectRating := none
    opponentRating := none
    ratingDelta := none
    result := .Draw
    opening := "Italian Game"
    numMoves := 30
    durationSeconds := none
    playedAt := 50 }

/-- A two-game normalized sequence. -/
def sampleGames : List CanonicalGame := [sampleGameWin, sampleGameDraw]

/-- The Italian Game row of the opening table over sampleGames. -/
def sampleOpeningRow : OpeningRow :=
  ⟨"Italian Game",
    mkRates (sampleGames.filter fun g => decide (g.opening = "Italian Game"))⟩

/-- The bullet-as-white row of the time-control-by-color table over
sampleGames: no sample game is bullet, so it is an all-zero row. -/
def sampleZeroRow : TcColorRow :=
  ⟨.Bullet, .White,
    mkRates (sampleGames.filter fun g =>
      decide (g.timeControl = TimeControl.Bullet ∧ g.subjectColor = Color.White))⟩

/-- An interaction trace against form-validation.js: the user types alice,
blurs the field, the debounce timer fires and the remote check for alice
starts; the user then edits the field to bob while that check is in
flight, and the check for alice resolves successfully afterwards. -/
def raceTrace : List FVEvent :=
  [.inputEdit "alice", .blur, .timerFire, .inputEdit "bob", .fetchResolve 0 .ok]

/-- The form state after raceTrace. -/
def raceState : FVState := fvRun (fvInit "" (some "lichess.org")) raceTrace

/-- The form state with the check for alice still in flight. -/
def pendingState : FVState :=
  fvRun (fvInit "" (some "lichess.org")) [.inputEdit "alice", .blur, .timerFire]

/-! ## Helper lemmas -/

/-- Unfolding of processBatch over a cons cell: the head is adapted and
either kept or counted as skipped, and the tail is always processed. -/
theorem processBatch_cons (r : RawGame) (ps : List RawGame) (u : String) :
    processBatch (r :: ps) u =
      match adapt r u with
      | .ok g => (g :: (processBatch ps u).1, (processBatch ps u).2)
      | .error _ => ((processBatch ps u).1, (processBatch ps u).2 + 1) := rfl

/-- Every game has exactly one of the three results, so the three result
filters partition any group. -/
theorem resultCountSplit (l : List CanonicalGame) :
    (l.filter fun g => decide (g.result = .Win)).length +
    (l.filter fun g => decide (g.result = .Draw)).length +
    (l.filter fun g => decide (g.result = .Loss)).length = l.length := by
  induction l with
  | nil => rfl
  | cons g t ih =>
    cases hr : g.result <;> simp [List.filter_cons, hr] <;> omega

/-- The reported group count is the group's size. -/
theorem mkRates_count (l : List CanonicalGame) : (mkRates l).count = l.length := by
  unfold mkRates
  by_cases h : l.length = 0 <;> simp [h]

/-- Rates of a group sum to one when the group is non-empty, and are all
zero when the group is empty. -/
theorem mkRates_good (l : List CanonicalGame) :
    (0 < (mkRates l).count →
      (mkRates l).winRate + (mkRates l).drawRate + (mkRates l).lossRate = 1) ∧
    ((mkRates l).count = 0 →
      (mkRates l).winRate = 0 ∧ (mkRates l).drawRate = 0 ∧ (mkRates l).lossRate = 0) := by
  constructor
  · intro hpos
    rw [mkRates_count] at hpos
    have h : l.length ≠ 0 := Nat.pos_iff_ne_zero.mp hpos
    unfold mkRates
    simp only [h, if_false, reduceIte]
    rw [div_add_div_same, div_add_div_same]
    rw [show (((l.filter fun g => decide (g.result = .Win)).length : ℚ) +
        (l.filter fun g => decide (g.result = .Draw)).length +
        (l.filter fun g => decide (g.result = .Loss)).length) = (l.length : ℚ) from by
      exact_mod_cast resultCountSplit l]
    exact div_self (by exact_mod_cast h)
  · intro hz
    by_cases hl : l.length = 0
    · unfold mkRates; simp [hl]
    · rw [mkRates_count] at hz; exact absurd hz hl

/-- The sorted indexed rating list is sorted for the trajectory key. -/
theorem sortedIndexed_pairwise (gs : List CanonicalGame) :
    (sortedIndexed gs).Pairwise trajLe :=
  List.sorted_insertionSort trajLe _

/-- Sorting permutes: the sorted indexed rating list holds exactly the
indexed games with a non-null rating. -/
theorem sortedIndexed_perm (gs : List CanonicalGame) :
    (sortedIndexed gs).Perm
      (gs.enum.filter fun p => p.2.subjectRating.isSome) :=
  List.perm_insertionSort trajLe _

/-- Filtering the enumerated list on the game and dropping the indices is
filtering the games. -/
theorem enumFrom_filter_snd :
    ∀ (n : Nat) (l : List CanonicalGame),
      ((List.enumFrom n l).filter fun q => q.2.subjectRating.isSome).map
        Prod.snd = l.filter fun g => g.subjectRating.isSome := by
  intro n l
  induction l generalizing n with
  | nil => rfl
  | cons a t ih =>
    simp only [List.enumFrom, List.filter_cons]
    cases hp : a.subjectRating.isSome <;> simp [hp, ih]

/-- The platform-native indices in the sorted indexed rating list are
pairwise distinct. -/
theorem sortedIndexed_fst_nodup (gs : List CanonicalGame) :
    ((sortedIndexed gs).map Prod.fst).Nodup := by
  have hperm := (sortedIndexed_perm gs).map Prod.fst
  refine hperm.nodup_iff.mpr ?_
  have hsub : (gs.enum.filter fun p => p.2.subjectRating.isSome).Sublist gs.enum :=
    List.filter_sublist _
  exact List.Nodup.sublist (hsub.map Prod.fst) (List.nodup_enum_map_fst gs)

/-- The sorted indexed rating list is strictly ordered: ascending playedAt
with ties strictly ordered by the platform-native index. -/
theorem sortedIndexed_strict (gs : List CanonicalGame) :
    (sortedIndexed gs).Pairwise fun a b =>
      a.2.playedAt < b.2.playedAt ∨ (a.2.playedAt = b.2.playedAt ∧ a.1 < b.1) := by
  have hp := sortedIndexed_pairwise gs
  have hn : (sortedIndexed gs).Pairwise fun a b => a.1 ≠ b.1 := by
    have h := sortedIndexed_fst_nodup gs
    rw [List.Nodup, List.pairwise_map] at h
    exact h
  refine (hp.and hn).imp fun {a b} h => ?_
  obtain ⟨hle, hne⟩ := h
  unfold trajLe at hle
  rcases hle with h1 | ⟨he, hle2⟩
  · exact Or.inl h1
  · exact Or.inr ⟨he, lt_of_le_of_ne hle2 hne⟩

/-- A validateUsername activation on a state whose cache is invalid leaves
the cache invalid and the submit button disabled. -/
theorem startValidation_invalid (s : FVState)
    (h : s.lastValidation.valid = false) :
    (startValidation s).lastValidation.valid = false ∧
    (startValidation s).submitDisabled = true := by
  simp only [startValidation]
  split_ifs with h1 h2
  · exact ⟨rfl, rfl⟩
  · exact absurd h2.2.2 (by simp [h])
  · exact ⟨h, rfl⟩

/-- A validateUsername activation never makes an invalid cache valid. -/
theorem startValidation_valid_mono (s : FVState)
    (h : (startValidation s).lastValidation.valid = true) :
    s.lastValidation.valid = true := by
  by_cases h0 : s.lastValidation.valid = true
  · exact h0
  · have hf := (startValidation_invalid s (by simpa using h0)).1
    rw [hf] at h
    exact absurd h (by decide)

/-! ## Claim theorems -/

/-- Claim C1: the Perspective Normalizer resolves subjectColor by matching
the subject username case-insensitively against the white/black player
identifiers; when exactly one side matches, the produced result is Win iff
the subject's absolute color equals the platform's declared winner, Draw
when there is no winner and Loss otherwise; when neither side matches,
normalization fails with SubjectNotInGame and produces no record. -/
theorem C1_perspective_normalizer (raw : RawGame) (u : String) :
    (jsToLower u = jsToLower raw.whiteId ∧ jsToLower u ≠ jsToLower raw.blackId →
      ∃ r, normalizeGame raw u = .ok (Color.White, r) ∧
        (r = .Win ↔ raw.winner = some Color.White) ∧
        (r = .Draw ↔ raw.winner = none) ∧
        (r = .Loss ↔ raw.winner = some Color.Black)) ∧
    (jsToLower u ≠ jsToLower raw.whiteId ∧ jsToLower u = jsToLower raw.blackId →
      ∃ r, normalizeGame raw u = .ok (Color.Black, r) ∧
        (r = .Win ↔ raw.winner = some Color.Black) ∧
        (r = .Draw ↔ raw.winner = none) ∧
        (r = .Loss ↔ raw.winner = some Color.White)) ∧
    (jsToLower u ≠ jsToLower raw.whiteId ∧ jsToLower u ≠ jsToLower raw.blackId →
      normalizeGame raw u = .error AdaptError.subjectNotInGame) := by
  refine ⟨fun h => ?_, fun h => ?_, fun h => ?_⟩
  · refine ⟨resultFor raw.winner .White, ?_, ?_, ?_, ?_⟩
    · simp [normalizeGame, resolveSubjectColor, h.1]
    · rcases raw.winner with _ | x
      · decide
      · cases x <;> decide
    · rcases raw.winner with _ | x
      · decide
      · cases x <;> decide
    · rcases raw.winner with _ | x
      · decide
      · cases x <;> decide
  · have hbw : jsToLower raw.blackId ≠ jsToLower raw.whiteId := h.2 ▸ h.1
    refine ⟨resultFor raw.winner .Black, ?_, ?_, ?_, ?_⟩
    · simp [normalizeGame, resolveSubjectColor, h.2, hbw]
    · rcases raw.winner with _ | x
      · decide
      · cases x <;> decide
    · rcases raw.winner with _ | x
      · decide
      · cases x <;> decide
    · rcases raw.winner with _ | x
      · decide
      · cases x <;> decide
  · simp [normalizeGame, resolveSubjectColor, h.1, h.2]

/-- Witness for C1 at a concrete payload: ALICE matches the white side of
sampleRawWhite only, and the declared winner is white. -/
theorem C1_perspective_normalizer_witness :
    (jsToLower "ALICE" = jsToLower sampleRawWhite.whiteId ∧
      jsToLower "ALICE" ≠ jsToLower sampleRawWhite.blackId) ∧
    ∃ r, normalizeGame sampleRawWhite "ALICE" = .ok (Color.White, r) ∧
      (r = .Win ↔ sampleRawWhite.winner = some Color.White) ∧
      (r = .Draw ↔ sampleRawWhite.winner = none) ∧
      (r = .Loss ↔ sampleRawWhite.winner = some Color.Black) :=
  ⟨by decide, (C1_perspective_normalizer sampleRawWhite "ALICE").1 (by decide)⟩

/-- Claim C2: a payload missing a required field (game id, move list or
timestamp) makes adapt fail with MalformedRecord and never yields a
partially-filled record; the batch continues past failed records, kept
records are exactly the successfully adapted ones, the skip count plus the
kept count is the batch size, and the pipeline reports a total game count
that excludes the skipped records next to the skip count. -/
theorem C2_malformed_record_skip (raw : RawGame) (u : String)
    (p : Platform) (tc : TimeControl)
    (fetch : Platform → TimeControl → List RawGame) (out : PipelineOutput) :
    (raw.gameId = none ∨ raw.moveList = none ∨ raw.endTimestamp = none →
      ∃ f, adapt raw u = .error (.malformedRecord f)) ∧
    (∀ ps : List RawGame,
      (processBatch ps u).1 = ps.filterMap (fun r => (adapt r u).toOption) ∧
      (processBatch ps u).1.length + (processBatch ps u).2 = ps.length) ∧
    (runPipeline p tc u fetch = .ok out →
      out.report.summary.totalGames + out.skippedCount = (fetch p tc).length) := by
  have key : ∀ ps : List RawGame,
      (processBatch ps u).1 = ps.filterMap (fun r => (adapt r u).toOption) ∧
      (processBatch ps u).1.length + (processBatch ps u).2 = ps.length := by
    intro ps
    induction ps with
    | nil => exact ⟨rfl, rfl⟩
    | cons r t ih =>
      have h2 := ih.2
      cases h : adapt r u with
      | ok g =>
        constructor
        · simp [processBatch_cons, h, List.filterMap_cons, Except.toOption, ih.1]
        · simp only [processBatch_cons, h, List.length_cons]
          omega
      | error e =>
        constructor
        · simp [processBatch_cons, h, List.filterMap_cons, Except.toOption, ih.1]
        · simp only [processBatch_cons, h, List.length_cons]
          omega
  refine ⟨?_, key, ?_⟩
  · rintro (h | h | h)
    · exact ⟨"game id", by simp [adapt, h]⟩
    · cases hg : raw.gameId with
      | none => exact ⟨"game id", by simp [adapt, hg]⟩
      | some g => exact ⟨"moves", by simp [adapt, hg, h]⟩
    · cases hg : raw.gameId with
      | none => exact ⟨"game id", by simp [adapt, hg]⟩
      | some g =>
        cases hm : raw.moveList with
        | none => exact ⟨"moves", by simp [adapt, hg, hm]⟩
        | some m => exact ⟨"timestamp", by simp [adapt, hg, hm, h]⟩
  · intro h
    unfold runPipeline at h
    cases hv : validateRequest p tc with
    | error e => rw [hv] at h; exact absurd h (by simp)
    | ok uu =>
      rw [hv] at h
      simp only [Except.ok.injEq] at h
      subst h
      have := (key (fetch p tc)).2
      simpa [aggregate, summaryOf] using this

/-- Witness for C2 at a concrete batch: the payload missing its move list
is rejected with MalformedRecord, and a three-payload fetch with one such
record yields a report of two games and a skip count summing to three. -/
theorem C2_malformed_record_skip_witness :
    (sampleRawMissingMoves.moveList = none ∧
      ∃ f, adapt sampleRawMissingMoves "alice" = .error (.malformedRecord f)) ∧
    (runPipeline .Lichess .Blitz "alice" sampleFetch = .ok samplePipelineOut ∧
      samplePipelineOut.report.summary.totalGames + samplePipelineOut.skippedCount =
        (sampleFetch .Lichess .Blitz).length) :=
  ⟨⟨rfl,
    (C2_malformed_record_skip sampleRawMissingMoves "alice" .Lichess .Blitz
      sampleFetch samplePipelineOut).1 (Or.inr (Or.inl rfl))⟩,
   ⟨rfl,
    (C2_malformed_record_skip sampleRawMissingMoves "alice" .Lichess .Blitz
      sampleFetch samplePipelineOut).2.2 rfl⟩⟩

/-- Claim C3: a request for Classical on Chess.com fails with
UnsupportedTimeControl before the fetcher is ever consulted (the result is
the error whatever the fetcher would return), so no empty-but-successful
report is produced; in the browser, updateTimeControls never leaves the
Classical option available when chess.com is the selected platform. -/
theorem C3_unsupported_time_control (u : String)
    (fetch : Platform → TimeControl → List RawGame) :
    runPipeline .ChessCom .Classical u fetch =
      .error (.unsupportedTimeControl .ChessCom .Classical) ∧
    ∀ b : Bool, updateTimeControls "chess.com" b = false :=
  ⟨rfl, fun _ => rfl⟩

/-- Claim C4: in both the opening table and the time-control-by-color
table, every group with a positive count has win, draw and loss rates
summing to exactly one, and every group with count zero has all three
rates zero. -/
theorem C4_rate_invariant (gs : List CanonicalGame) :
    (∀ row ∈ openingTable gs, 0 < row.rates.count →
      row.rates.winRate + row.rates.drawRate + row.rates.lossRate = 1) ∧
    (∀ row ∈ openingTable gs, row.rates.count = 0 →
      row.rates.winRate = 0 ∧ row.rates.drawRate = 0 ∧ row.rates.lossRate = 0) ∧
    (∀ row ∈ tcColorTable gs, 0 < row.rates.count →
      row.rates.winRate + row.rates.drawRate + row.rates.lossRate = 1) ∧
    (∀ row ∈ tcColorTable gs, row.rates.count = 0 →
      row.rates.winRate = 0 ∧ row.rates.drawRate = 0 ∧ row.rates.lossRate = 0) := by
  have hop : ∀ row : OpeningRow, row ∈ openingTable gs →
      ∃ sub : List CanonicalGame, row.rates = mkRates sub := by
    intro row h
    simp only [openingTable, List.mem_map] at h
    obtain ⟨o, _, rfl⟩ := h
    exact ⟨_, rfl⟩
  have htc : ∀ row : TcColorRow, row ∈ tcColorTable gs →
      ∃ sub : List CanonicalGame, row.rates = mkRates sub := by
    intro row h
    simp only [tcColorTable, List.mem_flatten, List.mem_map] at h
    obtain ⟨l, ⟨tc, _, rfl⟩, hc⟩ := h
    simp only [List.mem_map] at hc
    obtain ⟨c, _, rfl⟩ := hc
    exact ⟨_, rfl⟩
  refine ⟨?_, ?_, ?_, ?_⟩
  · intro row h
    obtain ⟨sub, hs⟩ := hop row h
    rw [hs]
    exact (mkRates_good sub).1
  · intro row h
    obtain ⟨sub, hs⟩ := hop row h
    rw [hs]
    exact (mkRates_good sub).2
  · intro row h
    obtain ⟨sub, hs⟩ := htc row h
    rw [hs]
    exact (mkRates_good sub).1
  · intro row h
    obtain ⟨sub, hs⟩ := htc row h
    rw [hs]
    exact (mkRates_good sub).2

/-- Witness for C4 on sampleGames: the Italian Game row has two games and
its rates sum to one, and the bullet-as-white row has zero games and
all-zero rates. -/
theorem C4_rate_invariant_witness :
    (sampleOpeningRow ∈ openingTable sampleGames ∧
      0 < sampleOpeningRow.rates.count ∧
      sampleOpeningRow.rates.winRate + sampleOpeningRow.rates.drawRate +
        sampleOpeningRow.rates.lossRate = 1) ∧
    (sampleZeroRow ∈ tcColorTable sampleGames ∧
      sampleZeroRow.rates.count = 0 ∧
      sampleZeroRow.rates.winRate = 0 ∧ sampleZeroRow.rates.drawRate = 0 ∧
      sampleZeroRow.rates.lossRate = 0) := by
  have hm1 : sampleOpeningRow ∈ openingTable sampleGames := List.Mem.head _
  have hc1 : 0 < sampleOpeningRow.rates.count := by decide
  have hm2 : sampleZeroRow ∈ tcColorTable sampleGames := List.Mem.head _
  have hc2 : sampleZeroRow.rates.count = 0 := by decide
  have hz := (C4_rate_invariant sampleGames).2.2.2 sampleZeroRow hm2 hc2
  exact ⟨⟨hm1, hc1, (C4_rate_invariant sampleGames).1 sampleOpeningRow hm1 hc1⟩,
    ⟨hm2, hc2, hz.1, hz.2.1, hz.2.2⟩⟩

/-- Claim C5: aggregation is a pure deterministic function of the input
sequence; running it under any two wall-clock values gives the same
report, equal to the clock-free aggregation, so two runs on the same
sequence in the same order are identical. -/
theorem C5_aggregate_determinism (t1 t2 : Nat) (gs : List CanonicalGame) :
    aggregateAtClock t1 gs = aggregateAtClock t2 gs ∧
    aggregateAtClock t1 gs = aggregate gs :=
  ⟨rfl, rfl⟩

/-- Claim C6: the rating trajectory consists of (playedAt, subjectRating,
ratingDelta) tuples in ascending playedAt order; the underlying sorted
indexed list is strictly ordered with playedAt ties broken by the
platform-native game order; the trajectory holds exactly the games with a
non-null subjectRating; and games with a null subjectRating are still
included in the report's total game count. -/
theorem C6_rating_trajectory (gs : List CanonicalGame) :
    (ratingTrajectory gs).Pairwise (fun a b => a.1 ≤ b.1) ∧
    ((sortedIndexed gs).Pairwise fun a b =>
      a.2.playedAt < b.2.playedAt ∨ (a.2.playedAt = b.2.playedAt ∧ a.1 < b.1)) ∧
    (ratingTrajectory gs).Perm
      ((gs.filter fun g => g.subjectRating.isSome).map
        fun g => (g.playedAt, g.subjectRating, g.ratingDelta)) ∧
    (aggregate gs).summary.totalGames = gs.length := by
  refine ⟨?_, sortedIndexed_strict gs, ?_, rfl⟩
  · unfold ratingTrajectory
    rw [List.pairwise_map]
    refine (sortedIndexed_pairwise gs).imp fun {a b} h => ?_
    unfold trajLe at h
    rcases h with h1 | ⟨he, _⟩
    · exact le_of_lt h1
    · exact le_of_eq he
  · unfold ratingTrajectory
    have hperm := (sortedIndexed_perm gs).map
      (fun p : Nat × CanonicalGame => (p.2.playedAt, p.2.subjectRating, p.2.ratingDelta))
    refine hperm.trans ?_
    have hrw : (gs.enum.filter fun p => p.2.subjectRating.isSome).map
        (fun p : Nat × CanonicalGame => (p.2.playedAt, p.2.subjectRating, p.2.ratingDelta)) =
        ((gs.enum.filter fun p => p.2.subjectRating.isSome).map Prod.snd).map
          (fun g => (g.playedAt, g.subjectRating, g.ratingDelta)) := by
      rw [List.map_map]
      rfl
    rw [hrw]
    unfold List.enum
    rw [enumFrom_filter_snd]

/-- Claim C7: the time-control-by-color table has a row for every
(timeControl, subjectColor) combination, a combination with no games
appearing as an all-zero row rather than being omitted, while the opening
table only carries groups with at least one game (and so never divides by
a zero total). -/
theorem C7_table_shape (gs : List CanonicalGame) :
    (∀ tc c, ∃ row, row ∈ tcColorTable gs ∧ row.timeControl = tc ∧ row.color = c ∧
      ((gs.filter fun g => decide (g.timeControl = tc ∧ g.subjectColor = c)) = [] →
        row.rates = ⟨0, 0, 0, 0⟩)) ∧
    (∀ row ∈ openingTable gs, 0 < row.rates.count) := by
  constructor
  · intro tc c
    refine ⟨⟨tc, c, mkRates (gs.filter fun g =>
      decide (g.timeControl = tc ∧ g.subjectColor = c))⟩, ?_, rfl, rfl, ?_⟩
    · simp only [tcColorTable, List.mem_flatten, List.mem_map]
      refine ⟨_, ⟨tc, ?_, rfl⟩, ?_⟩
      · cases tc <;> simp [allTimeControls]
      · simp only [List.mem_map]
        exact ⟨c, by cases c <;> simp [allColors], rfl⟩
    · intro h
      rw [h]
      rfl
  · intro row h
    simp only [openingTable, List.mem_map] at h
    obtain ⟨o, ho, rfl⟩ := h
    simp only [openingKeys, List.mem_dedup, List.mem_map] at ho
    obtain ⟨g, hg, rfl⟩ := ho
    show 0 < (mkRates _).count
    rw [mkRates_count]
    have hmem : g ∈ gs.filter fun g2 => decide (g2.opening = g.opening) := by
      simp [List.mem_filter, hg]
    exact List.length_pos.mpr (List.ne_nil_of_mem hmem)

/-- Witness for C7 on sampleGames: the bullet-as-white combination is
present (as an all-zero row, since no sample game is bullet), and the
Italian Game row has a positive count. -/
theorem C7_table_shape_witness :
    (∃ row, row ∈ tcColorTable sampleGames ∧ row.timeControl = .Bullet ∧
      row.color = .White ∧
      ((sampleGames.filter fun g =>
          decide (g.timeControl = TimeControl.Bullet ∧
            g.subjectColor = Color.White)) = [] →
        row.rates = ⟨0, 0, 0, 0⟩)) ∧
    (sampleOpeningRow ∈ openingTable sampleGames ∧
      0 < sampleOpeningRow.rates.count) :=
  ⟨(C7_table_shape sampleGames).1 .Bullet .White,
   ⟨List.Mem.head _,
    (C7_table_shape sampleGames).2 sampleOpeningRow (List.Mem.head _)⟩⟩

/-- Claim C8: the average duration excludes records with a null
durationSeconds; when every duration is null (including the empty input)
the average is null rather than zero; and the empty input yields a valid,
fully-populated report — an empty opening table, all-zero rows for every
time-control/color combination, an empty trajectory and zero/null summary
scalars — rather than an error. -/
theorem C8_summary_scalars (gs : List CanonicalGame) :
    (durationsOf gs = [] → (aggregate gs).summary.avgDuration = none) ∧
    (durationsOf gs ≠ [] →
      (aggregate gs).summary.avgDuration =
        some ((durationsOf gs).sum / ((durationsOf gs).length : ℚ))) ∧
    aggregate [] =
      { openings := []
        tcColor :=
          [⟨.Bullet, .White, ⟨0, 0, 0, 0⟩⟩, ⟨.Bullet, .Black, ⟨0, 0, 0, 0⟩⟩,
           ⟨.Blitz, .White, ⟨0, 0, 0, 0⟩⟩, ⟨.Blitz, .Black, ⟨0, 0, 0, 0⟩⟩,
           ⟨.Rapid, .White, ⟨0, 0, 0, 0⟩⟩, ⟨.Rapid, .Black, ⟨0, 0, 0, 0⟩⟩,
           ⟨.Classical, .White, ⟨0, 0, 0, 0⟩⟩, ⟨.Classical, .Black, ⟨0, 0, 0, 0⟩⟩,
           ⟨.Correspondence, .White, ⟨0, 0, 0, 0⟩⟩,
           ⟨.Correspondence, .Black, ⟨0, 0, 0, 0⟩⟩]
        trajectory := []
        summary := { totalGames := 0, winRate := 0, drawRate := 0, lossRate := 0,
                     avgMoveCount := none, avgDuration := none } } := by
  refine ⟨?_, ?_, by rfl⟩
  · intro h
    simp [aggregate, summaryOf, avgOpt, h]
  · intro h
    simp [aggregate, summaryOf, avgOpt, h]

/-- Witness for C8: on the empty input the average duration is null, and
on sampleGames (one null and one non-null duration) it is the average of
the non-null durations only. -/
theorem C8_summary_scalars_witness :
    (durationsOf [] = [] ∧ (aggregate []).summary.avgDuration = none) ∧
    (durationsOf sampleGames ≠ [] ∧
      (aggregate sampleGames).summary.avgDuration =
        some ((durationsOf sampleGames).sum / ((durationsOf sampleGames).length : ℚ))) :=
  ⟨⟨rfl, (C8_summary_scalars []).1 rfl⟩,
   ⟨by decide, (C8_summary_scalars sampleGames).2.1 (by decide)⟩⟩

/-- Claim C9: the displayed processing-time estimate is the rounding of
6 + 0.2 times the integer parsed from the max_games field (0 when the
field is empty or unparseable), and the game-limit warning is shown iff
that integer exceeds 1000. -/
theorem C9_time_estimate (fieldValue : String) :
    estimatedTimeDisplay fieldValue = round (6 + (0.2 : ℚ) * numGames fieldValue) ∧
    (gameLimitWarningShown fieldValue = true ↔ numGames fieldValue > 1000) := by
  constructor
  · unfold estimatedTimeDisplay jsRound
    rw [round_eq]
    congr 1
    ring
  · simp [gameLimitWarningShown]

/-- Claim C10, counterexample: after the raceTrace interaction sequence —
the remote check for alice resolves successfully only after the field was
edited to bob — the submit handler lets the form submit (the state is left
unchanged rather than prevented) although the cached validation record
holds alice, not the current trimmed lowercased field value bob.  So the
form can be submitted while the cached record does not mark the current
username as valid. -/
theorem C10_submit_race_counterexample :
    submitGoesThrough raceState = true ∧
    fvStep raceState .submitAttempt = raceState ∧
    raceState.lastValidation.username ≠ jsToLower (jsTrim raceState.inputValue) := by
  refine ⟨by decide, by decide, by decide⟩

/-- Claim C10 as amended: editing the username or changing the platform
always sets the cached record invalid and disables the submit button; the
cached record only becomes valid through a successfully resolving remote
check and then records the username/platform captured when that check
started (which may no longer be the current field value if it was edited
while the check was in flight); and a submit attempt goes through exactly
when no validation is in flight and the cached record is valid, being
prevented (and re-triggering validation) otherwise. -/
theorem C10_submit_gating_amended :
    (∀ (s : FVState) (v : String),
      (fvStep s (.inputEdit v)).lastValidation.valid = false ∧
      (fvStep s (.inputEdit v)).submitDisabled = true) ∧
    (∀ (s : FVState) (p : String),
      (fvStep s (.platformChange p)).lastValidation.valid = false ∧
      (fvStep s (.platformChange p)).submitDisabled = true) ∧
    (∀ (s : FVState) (e : FVEvent),
      (fvStep s e).lastValidation.valid = true →
      s.lastValidation.valid = true ∨
      ∃ i f, s.pending[i]? = some f ∧ e = .fetchResolve i .ok ∧
        (fvStep s e).lastValidation = ⟨f.username, f.platform, true⟩) ∧
    (∀ s : FVState, submitGoesThrough s = true ↔
      (s.isValidating = false ∧ s.lastValidation.valid = true)) ∧
    (∀ s : FVState, submitGoesThrough s = false →
      fvStep s .submitAttempt = startValidation s) := by
  refine ⟨?_, ?_, ?_, ?_, ?_⟩
  · intro s v
    exact ⟨rfl, rfl⟩
  · intro s p
    simp only [fvStep]
    split_ifs with hc
    · exact startValidation_invalid _ rfl
    · exact ⟨rfl, rfl⟩
  · intro s e h
    cases e with
    | inputEdit v => simp [fvStep] at h
    | platformChange p =>
      exfalso
      revert h
      simp only [fvStep]
      split_ifs with hc
      · intro h
        have := startValidation_valid_mono _ h
        simp at this
      · intro h
        simp at h
    | blur =>
      left
      simpa [fvStep] using h
    | timerFire =>
      left
      revert h
      simp only [fvStep]
      split_ifs with hc
      · intro h
        simpa using startValidation_valid_mono _ h
      · intro h
        exact h
    | fetchResolve i o =>
      revert h
      simp only [fvStep]
      cases hp : s.pending[i]? with
      | none =>
        intro h
        exact Or.inl h
      | some f =>
        cases o with
        | ok =>
          intro h
          exact Or.inr ⟨i, f, hp, rfl, rfl⟩
        | notFound =>
          intro h
          simp at h
        | otherError =>
          intro h
          exact Or.inl h
        | networkError =>
          intro h
          exact Or.inl h
    | submitAttempt =>
      left
      revert h
      simp only [fvStep]
      split_ifs with hc
      · intro h
        exact startValidation_valid_mono _ h
      · intro h
        exact h
  · intro s
    simp [submitGoesThrough]
  · intro s h
    cases hv : s.isValidating with
    | true =>
      simp only [fvStep]
      rw [if_pos (Or.inl hv)]
    | false =>
      cases hl : s.lastValidation.valid with
      | true =>
        exfalso
        simp [submitGoesThrough, hv, hl] at h
      | false =>
        simp only [fvStep]
        rw [if_pos (Or.inr hl)]

/-- Witness for the amended C10: with the check for alice in flight, its
successful resolution makes the cache valid with the captured data, and on
the initial page state (invalid cache) a submit attempt is prevented and
re-runs validateUsername. -/
theorem C10_submit_gating_amended_witness :
    ((fvStep pendingState (.fetchResolve 0 .ok)).lastValidation.valid = true ∧
      (pendingState.lastValidation.valid = true ∨
        ∃ i f, pendingState.pending[i]? = some f ∧
          FVEvent.fetchResolve 0 .ok = .fetchResolve i .ok ∧
          (fvStep pendingState (.fetchResolve 0 .ok)).lastValidation =
            ⟨f.username, f.platform, true⟩)) ∧
    (submitGoesThrough (fvInit "" none) = false ∧
      fvStep (fvInit "" none) .submitAttempt = startValidation (fvInit "" none)) :=
  ⟨⟨by decide,
    C10_submit_gating_amended.2.2.1 pendingState (.fetchResolve 0 .ok) (by decide)⟩,
   ⟨by decide,
    C10_submit_gating_amended.2.2.2.2 (fvInit "" none) (by decide)⟩⟩
